import Mathlib

/-!
Shallow embedding of the drill-dashboard frontend's algorithmic core
(src/unnamed/part_000): the degradation-aware synthetic sensor generator
`makeRandomDrillValues`, the feature-window builder (`sequence` and
`sequenceForEst` inside the ML-prediction effect), and the timer control
`stopAutoSend`.  JS numbers are modelled as exact rationals; the module-level
mutable `cycle` counter becomes explicit state passing; the `Math.random()`
draws become explicit parameters in `[0, 1)`.
-/

namespace DrillFrontend

/-- JS `Math.round`: round to nearest integer, ties toward positive infinity. -/
def jsRound (x : ℚ) : ℤ := ⌊x + 1 / 2⌋

/-- JS `+(x.toFixed(2))`: round to 2 decimal places (nearest, larger on ties). -/
def toFixed2 (x : ℚ) : ℚ := (jsRound (x * 100) : ℚ) / 100

/-- JS `+(x.toFixed(3))`: round to 3 decimal places (nearest, larger on ties). -/
def toFixed3 (x : ℚ) : ℚ := (jsRound (x * 1000) : ℚ) / 1000

/-- The generator's cross-call state: the module-level counter `let cycle = 0`
(src/unnamed/part_000, line 33). -/
structure GenState where
  cycle : ℕ
deriving DecidableEq

/-- Initial generator state: `cycle` starts at 0. -/
def genInit : GenState := ⟨0⟩

/-- The four `Math.random()` draws consumed by one call of
`makeRandomDrillValues`, in source order (temp, load, vibration, depth);
each is a real in `[0, 1)`. -/
structure Rand where
  rTemp : ℚ
  rLoad : ℚ
  rVib : ℚ
  rDepth : ℚ
deriving DecidableEq

/-- One sensor sample as returned by `makeRandomDrillValues`. -/
structure Sample where
  temp : ℚ
  rpm : ℤ
  load : ℚ
  vibration : ℚ
  depth : ℚ
deriving DecidableEq

/-- Shallow embedding of `makeRandomDrillValues` (src/unnamed/part_000,
lines 36-46).  The JS function mutates the module-level `cycle` with `cycle++`
before computing `degradationFactor = cycle / 1000`; here the state is passed
and returned explicitly, and the random draws are the parameter `r`. -/
def makeRandomDrillValues (st : GenState) (r : Rand) : GenState × Sample :=
  let cycle := st.cycle + 1
  let degradationFactor : ℚ := (cycle : ℚ) / 1000
  (⟨cycle⟩,
    { temp := toFixed2 (20 + r.rTemp * 60 + degradationFactor * 10),
      rpm := jsRound (5000 - degradationFactor * 1000),
      load := toFixed2 (r.rLoad * 30 + degradationFactor * 5),
      vibration := toFixed3 (r.rVib * 10 + degradationFactor * 2),
      depth := toFixed2 (r.rDepth * 50) })

/-- A run of the generator: one call of `makeRandomDrillValues` per element of
`rs`, threading the `cycle` state; returns the final state and the samples in
call order. -/
def runGen (st : GenState) : List Rand → GenState × List Sample
  | [] => (st, [])
  | r :: rs =>
    let p := makeRandomDrillValues st r
    let q := runGen p.1 rs
    (q.1, p.2 :: q.2)

/-- A Firestore record as read by the ML-prediction effect (src/unnamed/
part_000, lines 189-194): any numeric field may be missing (`undefined`),
which the code replaces by 0 via `?? 0`. -/
structure DrillRecord where
  temp : Option ℚ
  rpm : Option ℚ
  load : Option ℚ
  vibration : Option ℚ
  depth : Option ℚ
deriving DecidableEq

/-- The body of the `.map((r, i) => ...)` callback building one FeatureRow
(src/unnamed/part_000, lines 189-198).  `full` is the whole window
(`recentRecords`), over which the callback closes to read
`recentRecords[i-1].temp ?? 0`. -/
def rowAt (full : List DrillRecord) (i : ℕ) (r : DrillRecord) : List ℚ :=
  let temp := r.temp.getD 0
  let rpm := r.rpm.getD 0
  let load := r.load.getD 0
  let vibration := r.vibration.getD 0
  let depth := r.depth.getD 0
  let prevTemp := if 0 < i then
      (match full[i - 1]? with
        | some p => p.temp.getD 0
        | none => 0)
    else temp
  let tempChange := temp - prevTemp
  let torqueEst := (load * 9.55) / max rpm 1
  [temp, rpm, load, vibration, depth, tempChange, torqueEst]

/-- JS `Array.prototype.map` with the element index, specialised to the
FeatureRow callback (line 189): `recentRecords.map((r, i) => ...)`. -/
def mapWithIndex (full : List DrillRecord) : ℕ → List DrillRecord → List (List ℚ)
  | _, [] => []
  | i, r :: rest => rowAt full i r :: mapWithIndex full (i + 1) rest

/-- The feature `sequence` built from the chronological window `recentRecords`
(src/unnamed/part_000, lines 189-199): one FeatureRow
`[temp, rpm, load, vibration, depth, tempChange, torqueEst]` per record. -/
def sequence (recentRecords : List DrillRecord) : List (List ℚ) :=
  mapWithIndex recentRecords 0 recentRecords

/-- `const sequenceForEst = sequence.map(row => row.slice(1)).flat()`
(src/unnamed/part_000, line 217): the temperature-excluded flattened sequence
sent to the external temperature estimator. -/
def sequenceForEst (recentRecords : List DrillRecord) : List ℚ :=
  ((sequence recentRecords).map (fun row => row.drop 1)).flatten

/-- The pieces of component state touched by `stopAutoSend`: the interval
handle `autoRef.current` (`none` when no timer is active), the `autoSending`
flag and the `status` string. -/
structure AppState where
  autoRef : Option ℕ
  autoSending : Bool
  status : String
deriving DecidableEq

/-- Shallow embedding of `stopAutoSend` (src/unnamed/part_000, lines 142-149):
if a timer handle is present it is cleared; then `autoSending` is set to
`false` and `status` to "auto-stopped" unconditionally. -/
def stopAutoSend (s : AppState) : AppState :=
  let s1 := if s.autoRef.isSome then { s with autoRef := none } else s
  { s1 with autoSending := false, status := "auto-stopped" }

/-- The 3-row window of the spec's worked example: temperatures
[30, 32, 31], all other fields absent. -/
def exampleWindow : List DrillRecord :=
  [⟨some 30, none, none, none, none⟩,
   ⟨some 32, none, none, none, none⟩,
   ⟨some 31, none, none, none, none⟩]

/-! Helper lemmas about the embedded definitions. -/

theorem floor_half : ⌊(1 / 2 : ℚ)⌋ = 0 := by norm_num

theorem jsRound_intCast (z : ℤ) : jsRound (z : ℚ) = z := by
  unfold jsRound
  rw [Int.floor_int_add, floor_half, add_zero]

theorem le_toFixed2 {x : ℚ} {k : ℤ} (h : (k : ℚ) ≤ 100 * x) :
    (k : ℚ) / 100 ≤ toFixed2 x := by
  have hk : k ≤ ⌊x * 100 + 1 / 2⌋ := by
    rw [Int.le_floor]
    linarith
  have hk2 : (k : ℚ) ≤ (⌊x * 100 + 1 / 2⌋ : ℚ) := by exact_mod_cast hk
  unfold toFixed2 jsRound
  exact (div_le_div_iff_of_pos_right (by norm_num)).mpr hk2

theorem toFixed2_intCast_div (k : ℤ) : toFixed2 ((k : ℚ) / 100) = (k : ℚ) / 100 := by
  have h : (k : ℚ) / 100 * 100 = (k : ℚ) := by field_simp
  unfold toFixed2 jsRound
  rw [h, Int.floor_int_add, floor_half, add_zero]

theorem makeRandomDrillValues_fst (st : GenState) (r : Rand) :
    (makeRandomDrillValues st r).1 = ⟨st.cycle + 1⟩ := rfl

theorem makeRandomDrillValues_temp (st : GenState) (r : Rand) :
    (makeRandomDrillValues st r).2.temp
      = toFixed2 (20 + r.rTemp * 60 + ((st.cycle + 1 : ℕ) : ℚ) / 1000 * 10) := rfl

theorem makeRandomDrillValues_rpm (st : GenState) (r : Rand) :
    (makeRandomDrillValues st r).2.rpm = 5000 - ((st.cycle : ℤ) + 1) := by
  show jsRound (5000 - ((st.cycle + 1 : ℕ) : ℚ) / 1000 * 1000) = _
  have h : (5000 : ℚ) - ((st.cycle + 1 : ℕ) : ℚ) / 1000 * 1000
      = ((5000 - ((st.cycle : ℤ) + 1) : ℤ) : ℚ) := by
    push_cast
    ring
  rw [h, jsRound_intCast]

theorem runGen_fst (st : GenState) (rs : List Rand) :
    (runGen st rs).1.cycle = st.cycle + rs.length := by
  induction rs generalizing st with
  | nil => simp [runGen]
  | cons r rs ih =>
    show (runGen (makeRandomDrillValues st r).1 rs).1.cycle = _
    rw [ih, makeRandomDrillValues_fst]
    show st.cycle + 1 + rs.length = st.cycle + (rs.length + 1)
    omega

theorem runGen_getElem (st : GenState) (rs : List Rand) (i : ℕ) :
    (runGen st rs).2[i]?
      = rs[i]?.map (fun r => (makeRandomDrillValues ⟨st.cycle + i⟩ r).2) := by
  induction rs generalizing st i with
  | nil => simp [runGen]
  | cons r rs ih =>
    have hrun : (runGen st (r :: rs)).2
        = (makeRandomDrillValues st r).2 :: (runGen (makeRandomDrillValues st r).1 rs).2 := rfl
    cases i with
    | zero =>
      rw [hrun]
      simp only [List.getElem?_cons_zero, Option.map_some']
      rfl
    | succ n =>
      have h : st.cycle + (n + 1) = st.cycle + 1 + n := by omega
      rw [hrun, List.getElem?_cons_succ, List.getElem?_cons_succ, ih, h]
      rfl

theorem mapWithIndex_getElem (full rest : List DrillRecord) (start i : ℕ) :
    (mapWithIndex full start rest)[i]?
      = rest[i]?.map (fun r => rowAt full (start + i) r) := by
  induction rest generalizing start i with
  | nil => simp [mapWithIndex]
  | cons r rest ih =>
    cases i with
    | zero => simp [mapWithIndex]
    | succ n =>
      have h : start + (n + 1) = start + 1 + n := by omega
      have hmap : mapWithIndex full start (r :: rest)
          = rowAt full start r :: mapWithIndex full (start + 1) rest := rfl
      rw [hmap, List.getElem?_cons_succ, List.getElem?_cons_succ, ih, h]

theorem sequence_getElem (records : List DrillRecord) (i : ℕ) :
    (sequence records)[i]? = records[i]?.map (fun r => rowAt records i r) := by
  have h := mapWithIndex_getElem records records 0 i
  simpa [sequence] using h

theorem mapWithIndex_length (full rest : List DrillRecord) (start : ℕ) :
    (mapWithIndex full start rest).length = rest.length := by
  induction rest generalizing start with
  | nil => rfl
  | cons r rest ih => simp [mapWithIndex, ih]

theorem sequence_length (records : List DrillRecord) :
    (sequence records).length = records.length :=
  mapWithIndex_length records records 0

theorem rowAt_length (full : List DrillRecord) (i : ℕ) (r : DrillRecord) :
    (rowAt full i r).length = 7 := rfl

theorem sequence_rows_length (records : List DrillRecord) :
    ∀ row ∈ sequence records, row.length = 7 := by
  intro row hrow
  rw [List.mem_iff_getElem?] at hrow
  obtain ⟨i, hi⟩ := hrow
  rw [sequence_getElem] at hi
  obtain ⟨r, hr, hval⟩ := Option.map_eq_some'.mp hi
  rw [← hval]
  exact rowAt_length records i r

theorem flatten_map_drop_length (L : List (List ℚ)) (h : ∀ row ∈ L, row.length = 7) :
    ((L.map (fun row => row.drop 1)).flatten).length = 6 * L.length := by
  induction L with
  | nil => simp
  | cons row L ih =>
    simp only [List.map_cons, List.flatten_cons, List.length_append, List.length_cons]
    have h7 : row.length = 7 := h row (List.mem_cons_self _ _)
    have h6 : (row.drop 1).length = 6 := by simp [h7]
    rw [h6, ih (fun s hs => h s (List.mem_cons_of_mem _ hs))]
    omega

theorem flatten_map_drop_segment (L : List (List ℚ)) (h : ∀ row ∈ L, row.length = 7)
    (i : ℕ) (row : List ℚ) (hrow : L[i]? = some row) :
    (((L.map (fun s => s.drop 1)).flatten).drop (6 * i)).take 6 = row.drop 1 := by
  induction L generalizing i with
  | nil => simp at hrow
  | cons r0 L ih =>
    have h60 : (r0.drop 1).length = 6 := by
      have h7 : r0.length = 7 := h r0 (List.mem_cons_self _ _)
      simp [h7]
    cases i with
    | zero =>
      simp only [List.getElem?_cons_zero, Option.some.injEq] at hrow
      subst hrow
      simp only [List.map_cons, List.flatten_cons, Nat.mul_zero, List.drop_zero]
      exact List.take_left' h60
    | succ n =>
      simp only [List.getElem?_cons_succ] at hrow
      simp only [List.map_cons, List.flatten_cons]
      have h6 : 6 * (n + 1) = 6 + 6 * n := by omega
      rw [h6, ← List.drop_drop, List.drop_left' h60]
      exact ih (fun s hs => h s (List.mem_cons_of_mem _ hs)) n hrow

/-! The claims. -/

/-- C6: the generator's cycle counter starts at 0, is incremented by exactly 1
on each sample produced — before `degradationFactor = cycle / 1000` is
computed, as witnessed by the produced rpm reflecting `cycle + 1` — is never
reset or decreased, and for every two sequential generator calls the second
call observes a cycle value strictly greater than the first. -/
theorem cycle_counter_spec :
    genInit.cycle = 0 ∧
    (∀ st r, (makeRandomDrillValues st r).1.cycle = st.cycle + 1) ∧
    (∀ st rs, (runGen st rs).1.cycle = st.cycle + rs.length) ∧
    (∀ st r, (makeRandomDrillValues st r).2.rpm = 5000 - ((st.cycle : ℤ) + 1)) ∧
    (∀ st r r₂,
      (makeRandomDrillValues st r).1.cycle
        < (makeRandomDrillValues (makeRandomDrillValues st r).1 r₂).1.cycle) := by
  refine ⟨rfl, fun st r => rfl, runGen_fst, makeRandomDrillValues_rpm, ?_⟩
  intro st r r₂
  show st.cycle + 1 < st.cycle + 1 + 1
  omega

/-- C10: the feature-window construction is deterministic — two runs on the
same input window yield the same FeatureRow sequence and the same
temperature-excluded flattened sequence. -/
theorem builder_deterministic (rec1 rec2 : List DrillRecord) (h : rec1 = rec2) :
    sequence rec1 = sequence rec2 ∧ sequenceForEst rec1 = sequenceForEst rec2 := by
  subst h
  exact ⟨rfl, rfl⟩

/-- Witness for C10 at a concrete one-record window. -/
theorem builder_deterministic_witness :
    sequence [⟨some 1, some 2, none, none, none⟩]
        = sequence [⟨some 1, some 2, none, none, none⟩] ∧
      sequenceForEst [⟨some 1, some 2, none, none, none⟩]
        = sequenceForEst [⟨some 1, some 2, none, none, none⟩] :=
  builder_deterministic [⟨some 1, some 2, none, none, none⟩]
    [⟨some 1, some 2, none, none, none⟩] rfl

/-- C8 counterexample: with no active timer and `status = "idle"`,
`stopAutoSend` changes the state — it overwrites `status` with
"auto-stopped" — so a stop issued with no active timer does not leave every
field of the state unchanged. -/
theorem stopAutoSend_changes_status :
    ¬ (stopAutoSend { autoRef := none, autoSending := false, status := "idle" }
        = { autoRef := none, autoSending := false, status := "idle" }) := by
  decide

/-- C8 amended: invoking `stopAutoSend` when no timer is active does not raise
and leaves the timer handle `none`, but it does write `autoSending := false`
and `status := "auto-stopped"`; consequently the operation is idempotent — a
second stop leaves the state fixed. -/
theorem stopAutoSend_no_timer_spec (s : AppState) (h : s.autoRef = none) :
    stopAutoSend s
        = { autoRef := none, autoSending := false, status := "auto-stopped" } ∧
      stopAutoSend (stopAutoSend s) = stopAutoSend s := by
  obtain ⟨a, b, st⟩ := s
  have ha : a = none := h
  subst ha
  have h1 : stopAutoSend ⟨none, b, st⟩
      = { autoRef := none, autoSending := false, status := "auto-stopped" } := rfl
  exact ⟨h1, by rw [h1]; rfl⟩

/-- Witness for C8's amended claim at a concrete state with no active timer. -/
theorem stopAutoSend_no_timer_spec_witness :
    stopAutoSend { autoRef := none, autoSending := true, status := "idle" }
        = { autoRef := none, autoSending := false, status := "auto-stopped" } ∧
      stopAutoSend (stopAutoSend { autoRef := none, autoSending := true, status := "idle" })
        = stopAutoSend { autoRef := none, autoSending := true, status := "idle" } :=
  stopAutoSend_no_timer_spec { autoRef := none, autoSending := true, status := "idle" } rfl

/-- C2: in every window, the first FeatureRow's temperatureChange entry is 0;
for every index i ≥ 1 it equals temperature(i) - temperature(i-1); and the
3-row window with temperatures [30, 32, 31] yields the temperatureChange
sequence [0, 2, -1]. -/
theorem temperatureChange_spec (records : List DrillRecord) (i : ℕ)
    (rc : DrillRecord) (hc : records[i]? = some rc) :
    (∃ row, (sequence records)[i]? = some row ∧
      (i = 0 → row[5]? = some 0) ∧
      (∀ rp tp tc, 1 ≤ i → records[i - 1]? = some rp → rp.temp = some tp →
        rc.temp = some tc → row[5]? = some (tc - tp))) ∧
    (sequence exampleWindow).map (fun row => row[5]?)
      = ([some 0, some 2, some (-1)] : List (Option ℚ)) := by
  constructor
  · refine ⟨rowAt records i rc, by rw [sequence_getElem, hc]; rfl, ?_, ?_⟩
    · intro h0
      subst h0
      simp [rowAt]
    · intro rp tp tc h1 hp htp htc
      have hpos : 0 < i := h1
      simp [rowAt, hpos, hp, htp, htc]
  · norm_num [sequence, mapWithIndex, rowAt, exampleWindow]

/-- Witness for C2 at the spec's example window, index 1. -/
theorem temperatureChange_spec_witness :
    (∃ row, (sequence exampleWindow)[1]? = some row ∧
      ((1 : ℕ) = 0 → row[5]? = some 0) ∧
      (∀ rp tp tc, 1 ≤ (1 : ℕ) → exampleWindow[1 - 1]? = some rp →
        rp.temp = some tp →
        (⟨some 32, none, none, none, none⟩ : DrillRecord).temp = some tc →
        row[5]? = some (tc - tp))) ∧
    (sequence exampleWindow).map (fun row => row[5]?)
      = ([some 0, some 2, some (-1)] : List (Option ℚ)) :=
  temperatureChange_spec exampleWindow 1 ⟨some 32, none, none, none, none⟩ rfl

/-- C3: every FeatureRow's torqueEstimate entry equals
`(load * 9.55) / max(rpm, 1)`; the denominator is at least 1 — in particular
equal to 1 when rpm = 0 — so the division never has a zero divisor. -/
theorem torqueEstimate_spec (records : List DrillRecord) (i : ℕ)
    (r : DrillRecord) (h : records[i]? = some r) :
    ∃ row, (sequence records)[i]? = some row ∧
      row[6]? = some ((r.load.getD 0 * 9.55) / max (r.rpm.getD 0) 1) ∧
      (1 : ℚ) ≤ max (r.rpm.getD 0) 1 ∧
      (r.rpm.getD 0 = 0 → max (r.rpm.getD 0) 1 = 1) := by
  refine ⟨rowAt records i r, by rw [sequence_getElem, h]; rfl, rfl,
    le_max_right _ _, ?_⟩
  intro h0
  rw [h0]
  simp

/-- Witness for C3 at a one-record window whose rpm is 0. -/
theorem torqueEstimate_spec_witness :
    ∃ row, (sequence [⟨none, some 0, some 2, none, none⟩])[0]? = some row ∧
      row[6]? = some
        (((⟨none, some 0, some 2, none, none⟩ : DrillRecord).load.getD 0 * 9.55)
          / max ((⟨none, some 0, some 2, none, none⟩ : DrillRecord).rpm.getD 0) 1) ∧
      (1 : ℚ) ≤ max ((⟨none, some 0, some 2, none, none⟩ : DrillRecord).rpm.getD 0) 1 ∧
      ((⟨none, some 0, some 2, none, none⟩ : DrillRecord).rpm.getD 0 = 0 →
        max ((⟨none, some 0, some 2, none, none⟩ : DrillRecord).rpm.getD 0) 1 = 1) :=
  torqueEstimate_spec [⟨none, some 0, some 2, none, none⟩] 0
    ⟨none, some 0, some 2, none, none⟩ rfl

/-- C5: for every window of W records the temperature-excluded flattened
sequence has exactly 6 * W entries, and its i-th block of 6 is exactly the
i-th FeatureRow with its index-0 (temperature) entry dropped — row order and
within-row field order preserved. -/
theorem flattened_sequence_spec (records : List DrillRecord) :
    (sequenceForEst records).length = 6 * records.length ∧
    (∀ i row, (sequence records)[i]? = some row →
      ((sequenceForEst records).drop (6 * i)).take 6 = row.drop 1) := by
  have h7 := sequence_rows_length records
  constructor
  · show ((sequence records).map (fun row => row.drop 1)).flatten.length = _
    rw [flatten_map_drop_length (sequence records) h7, sequence_length]
  · intro i row hrow
    exact flatten_map_drop_segment (sequence records) h7 i row hrow

/-- Witness for C5 at the spec's example window, index 1. -/
theorem flattened_sequence_spec_witness :
    (sequenceForEst exampleWindow).length = 6 * exampleWindow.length ∧
    ((sequenceForEst exampleWindow).drop (6 * 1)).take 6
      = ([32, 0, 0, 0, 0, 2, 0] : List ℚ).drop 1 :=
  ⟨(flattened_sequence_spec exampleWindow).1,
    (flattened_sequence_spec exampleWindow).2 1 ([32, 0, 0, 0, 0, 2, 0] : List ℚ)
      (by norm_num [sequence, mapWithIndex, rowAt, exampleWindow])⟩

/-- C7: a record with a missing numeric field is treated as having value 0 in
that field of its FeatureRow; the builder is total (never raises), and the
empty window yields empty outputs. -/
theorem missing_fields_spec :
    (sequence [] = [] ∧ sequenceForEst [] = []) ∧
    (∀ (records : List DrillRecord) (i : ℕ) (r : DrillRecord),
      records[i]? = some r →
      ∃ row, (sequence records)[i]? = some row ∧
        (r.temp = none → row[0]? = some 0) ∧
        (r.rpm = none → row[1]? = some 0) ∧
        (r.load = none → row[2]? = some 0) ∧
        (r.vibration = none → row[3]? = some 0) ∧
        (r.depth = none → row[4]? = some 0)) := by
  refine ⟨⟨rfl, rfl⟩, ?_⟩
  intro records i r h
  refine ⟨rowAt records i r, by rw [sequence_getElem, h]; rfl,
    ?_, ?_, ?_, ?_, ?_⟩ <;>
    · intro hn
      simp [rowAt, hn]

/-- Witness for C7 at a one-record window whose fields are all missing. -/
theorem missing_fields_spec_witness :
    ∃ row, (sequence [⟨none, none, none, none, none⟩])[0]? = some row ∧
      ((⟨none, none, none, none, none⟩ : DrillRecord).temp = none →
        row[0]? = some 0) ∧
      ((⟨none, none, none, none, none⟩ : DrillRecord).rpm = none →
        row[1]? = some 0) ∧
      ((⟨none, none, none, none, none⟩ : DrillRecord).load = none →
        row[2]? = some 0) ∧
      ((⟨none, none, none, none, none⟩ : DrillRecord).vibration = none →
        row[3]? = some 0) ∧
      ((⟨none, none, none, none, none⟩ : DrillRecord).depth = none →
        row[4]? = some 0) :=
  missing_fields_spec.2 [⟨none, none, none, none, none⟩] 0
    ⟨none, none, none, none, none⟩ rfl

/-- C9: when the chronological predecessor's temperature is missing and the
current record's temperature t is present, the temperatureChange entry equals
t itself (the missing predecessor defaults to 0), not 0 whenever t ≠ 0. -/
theorem tempChange_missing_prev_spec (records : List DrillRecord) (i : ℕ)
    (rp rc : DrillRecord) (t : ℚ) (h1 : 1 ≤ i)
    (hp : records[i - 1]? = some rp) (hc : records[i]? = some rc)
    (hmp : rp.temp = none) (hct : rc.temp = some t) :
    ∃ row, (sequence records)[i]? = some row ∧ row[5]? = some t ∧
      (t ≠ 0 → row[5]? ≠ some 0) := by
  have hpos : 0 < i := h1
  have h5 : (rowAt records i rc)[5]? = some t := by
    simp [rowAt, hpos, hp, hmp, hct]
  refine ⟨rowAt records i rc, by rw [sequence_getElem, hc]; rfl, h5, ?_⟩
  intro ht h0
  rw [h5] at h0
  exact ht (Option.some.inj h0)

/-- Witness for C9 at a 2-record window: predecessor temperature missing,
current temperature 5, so the second row's temperatureChange is 5. -/
theorem tempChange_missing_prev_spec_witness :
    ∃ row,
      (sequence [⟨none, none, none, none, none⟩, ⟨some 5, none, none, none, none⟩])[1]?
          = some row ∧
        row[5]? = some 5 ∧ ((5 : ℚ) ≠ 0 → row[5]? ≠ some 0) :=
  tempChange_missing_prev_spec
    [⟨none, none, none, none, none⟩, ⟨some 5, none, none, none, none⟩] 1
    ⟨none, none, none, none, none⟩ ⟨some 5, none, none, none, none⟩ 5
    (by decide) rfl rfl rfl rfl

theorem runGen_rpm (rs : List Rand) (c : ℕ) (s : Sample) (h1 : 1 ≤ c)
    (hs : (runGen genInit rs).2[c - 1]? = some s) : s.rpm = 5000 - (c : ℤ) := by
  rw [runGen_getElem] at hs
  obtain ⟨r, hr, hsr⟩ := Option.map_eq_some'.mp hs
  rw [← hsr, makeRandomDrillValues_rpm]
  show (5000 : ℤ) - (((genInit.cycle + (c - 1) : ℕ) : ℤ) + 1) = 5000 - (c : ℤ)
  have h0 : genInit.cycle = 0 := rfl
  omega

theorem runGen_temp (rs : List Rand) (c : ℕ) (r : Rand) (s : Sample) (h1 : 1 ≤ c)
    (hr : rs[c - 1]? = some r)
    (hs : (runGen genInit rs).2[c - 1]? = some s) :
    s.temp = toFixed2 (20 + r.rTemp * 60 + ((c : ℚ) / 1000) * 10) := by
  rw [runGen_getElem, hr] at hs
  simp only [Option.map_some'] at hs
  have hs2 := Option.some.inj hs
  have hcyc : (⟨genInit.cycle + (c - 1)⟩ : GenState).cycle + 1 = c := by
    show genInit.cycle + (c - 1) + 1 = c
    have h0 : genInit.cycle = 0 := rfl
    omega
  rw [← hs2, makeRandomDrillValues_temp, hcyc]

/-- C1: the rpm field produced on the c-th generator call equals
`Math.round(5000 - (c/1000)*1000)`, which is 5000 - c; the rpm sequence is
non-increasing in the call count; and with no clamp applied it is negative
for every call count beyond 5000. -/
theorem rpm_spec (rs : List Rand) (c : ℕ) (s : Sample)
    (h1 : 1 ≤ c) (hs : (runGen genInit rs).2[c - 1]? = some s) :
    s.rpm = jsRound ((5000 : ℚ) - ((c : ℚ) / 1000) * 1000) ∧
    s.rpm = 5000 - (c : ℤ) ∧
    (∀ (c₂ : ℕ) (s₂ : Sample), c ≤ c₂ →
      (runGen genInit rs).2[c₂ - 1]? = some s₂ → s₂.rpm ≤ s.rpm) ∧
    (5000 < c → s.rpm < 0) := by
  have hval := runGen_rpm rs c s h1 hs
  have hform : jsRound ((5000 : ℚ) - ((c : ℚ) / 1000) * 1000) = 5000 - (c : ℤ) := by
    have h : (5000 : ℚ) - ((c : ℚ) / 1000) * 1000 = ((5000 - (c : ℤ) : ℤ) : ℚ) := by
      push_cast
      ring
    rw [h, jsRound_intCast]
  refine ⟨by rw [hval, hform], hval, ?_, ?_⟩
  · intro c₂ s₂ hc hs₂
    have h2 : 1 ≤ c₂ := le_trans h1 hc
    rw [hval, runGen_rpm rs c₂ s₂ h2 hs₂]
    omega
  · intro h5
    rw [hval]
    omega

/-- Witness for C1 at a single generator call with all random draws 0. -/
theorem rpm_spec_witness :
    (⟨2001/100, 4999, 1/100, 1/500, 0⟩ : Sample).rpm
        = jsRound ((5000 : ℚ) - (((1 : ℕ) : ℚ) / 1000) * 1000) ∧
      (⟨2001/100, 4999, 1/100, 1/500, 0⟩ : Sample).rpm = 5000 - ((1 : ℕ) : ℤ) ∧
      (∀ (c₂ : ℕ) (s₂ : Sample), 1 ≤ c₂ →
        (runGen genInit [⟨0, 0, 0, 0⟩]).2[c₂ - 1]? = some s₂ →
        s₂.rpm ≤ (⟨2001/100, 4999, 1/100, 1/500, 0⟩ : Sample).rpm) ∧
      (5000 < 1 → (⟨2001/100, 4999, 1/100, 1/500, 0⟩ : Sample).rpm < 0) :=
  rpm_spec [⟨0, 0, 0, 0⟩] 1 ⟨2001/100, 4999, 1/100, 1/500, 0⟩ (by decide)
    (by norm_num [runGen, genInit, makeRandomDrillValues, toFixed2, toFixed3, jsRound])

/-- C4: on the c-th generator call, for every admissible random draw the
produced temperature is at least 20 + (c/1000)*10; the bound is attained
exactly when the draw is 0, and the bound strictly increases with the call
count. -/
theorem temperature_spec (rs : List Rand) (c : ℕ) (r : Rand) (s : Sample)
    (h1 : 1 ≤ c) (hr : rs[c - 1]? = some r) (hrand : 0 ≤ r.rTemp)
    (hs : (runGen genInit rs).2[c - 1]? = some s) :
    20 + ((c : ℚ) / 1000) * 10 ≤ s.temp ∧
    (r.rTemp = 0 → s.temp = 20 + ((c : ℚ) / 1000) * 10) ∧
    (∀ c₂ : ℕ, c < c₂ →
      20 + ((c : ℚ) / 1000) * 10 < 20 + ((c₂ : ℚ) / 1000) * 10) := by
  have htemp := runGen_temp rs c r s h1 hr hs
  have hb : ((2000 + (c : ℤ) : ℤ) : ℚ)
      ≤ 100 * (20 + r.rTemp * 60 + ((c : ℚ) / 1000) * 10) := by
    push_cast
    linarith
  have hle := le_toFixed2 hb
  have heq : ((2000 + (c : ℤ) : ℤ) : ℚ) / 100 = 20 + ((c : ℚ) / 1000) * 10 := by
    push_cast
    ring
  rw [htemp]
  refine ⟨by rw [← heq]; exact hle, ?_, ?_⟩
  · intro h0
    have hx0 : 20 + r.rTemp * 60 + ((c : ℚ) / 1000) * 10
        = ((2000 + (c : ℤ) : ℤ) : ℚ) / 100 := by
      rw [h0]
      push_cast
      ring
    rw [hx0, toFixed2_intCast_div, heq]
  · intro c₂ hlt
    have hq : (c : ℚ) < (c₂ : ℚ) := by exact_mod_cast hlt
    linarith

/-- Witness for C4 at a single generator call whose temperature draw is 0, so
the produced temperature 20.01 attains the lower bound 20 + (1/1000)*10. -/
theorem temperature_spec_witness :
    20 + (((1 : ℕ) : ℚ) / 1000) * 10 ≤ (⟨2001/100, 4999, 1/100, 1/500, 0⟩ : Sample).temp ∧
    ((⟨0, 0, 0, 0⟩ : Rand).rTemp = 0 →
      (⟨2001/100, 4999, 1/100, 1/500, 0⟩ : Sample).temp
        = 20 + (((1 : ℕ) : ℚ) / 1000) * 10) ∧
    (∀ c₂ : ℕ, 1 < c₂ →
      20 + (((1 : ℕ) : ℚ) / 1000) * 10 < 20 + ((c₂ : ℚ) / 1000) * 10) :=
  temperature_spec [⟨0, 0, 0, 0⟩] 1 ⟨0, 0, 0, 0⟩ ⟨2001/100, 4999, 1/100, 1/500, 0⟩
    (by decide) rfl (le_refl 0)
    (by norm_num [runGen, genInit, makeRandomDrillValues, toFixed2, toFixed3, jsRound])

end DrillFrontend
